import Mathlib

/-!
# GoCraft: voxel grid, tile atlas, camera and input step

A shallow embedding of `main.go`.

Conventions of the embedding:

* Go `int` values are Lean `Int`; the constants of the grid are small, so no
  wrap-around is involved in any comparison made by the code.
* A finite `float32` or `float64` value is the rational number it denotes (`ℚ`).
  Every `float32` operation of the camera position code (`processInput`, the camera
  placement of `main`, the `mgl32.Vec3` methods) is the exact operation followed by
  `round32`, IEEE 754 round-to-nearest-even to binary32, each operation rounded on
  its own (no fused multiply-add); a conversion `float32(...)` and an untyped
  constant used at type `float32` are `round32` of the exact value.
  Overflow to an infinity and NaN are outside the model (`round32` has no largest
  value); they need magnitudes near 3.4e38, far from the grid.  `math.Floor`
  followed by `int(...)` is `Int.floor`.
* The `float64` cursor and angle arithmetic of `mouseCallback` is kept exact: the
  only property proved of it is the clamp, which compares against the exactly
  representable bounds 89 and -89.  The tile offsets and model translations of the
  drawing loop are small dyadic numbers, which `float32` represents exactly.
* `worldData` has the Go type `[16][8][16]int`, a total map from in-range
  indices to cells.  An index expression `worldData[x][y][z]` with Go ints is a
  checked access: it yields `none` where Go would stop with an index-out-of-range
  runtime error.  Functions that read or write the grid therefore return `Option`.
* Library functions that have no rational model (`math.Cos`, `math.Sin`,
  `mgl32.DegToRad`, `Vec3.Normalize`) are parameters of the functions that call them.
-/

namespace GoCraft

/-! ## Constants -/

abbrev worldSizeX : Nat := 16
abbrev worldSizeY : Nat := 8
abbrev worldSizeZ : Nat := 16

def mouseSensitivity : ℚ := 1 / 10
def moveSpeed : ℚ := 4
def playerHeight : ℚ := 18 / 10
def atlasDimension : Nat := 16
def tileSize : ℚ := 1 / 16

abbrev BlockAir : Int := 0
abbrev BlockGrass : Int := 1
abbrev BlockDirt : Int := 2
abbrev BlockStone : Int := 3

/-! ## The voxel grid -/

/-- The Go array type `[worldSizeX][worldSizeY][worldSizeZ]int`. -/
abbrev World : Type := Fin worldSizeX → Fin worldSizeY → Fin worldSizeZ → Int

/-- The index triple is inside the array bounds. -/
def InGrid (x y z : Int) : Prop :=
  (0 ≤ x ∧ x < worldSizeX) ∧ (0 ≤ y ∧ y < worldSizeY) ∧ (0 ≤ z ∧ z < worldSizeZ)

instance (x y z : Int) : Decidable (InGrid x y z) := by
  unfold InGrid; infer_instance

/-- Convert an in-range Go index to an array index. -/
def toIdx (n : Nat) (i : Int) (h : 0 ≤ i ∧ i < (n : Int)) : Fin n :=
  ⟨i.toNat, by omega⟩

/-- The cell stored at an in-range index triple. -/
def cellAt (w : World) (x y z : Int) (h : InGrid x y z) : Int :=
  w (toIdx worldSizeX x h.1) (toIdx worldSizeY y h.2.1) (toIdx worldSizeZ z h.2.2)

/-- Checked read `worldData[x][y][z]`; `none` is the Go index-out-of-range error. -/
def readCell (w : World) (x y z : Int) : Option Int :=
  if h : InGrid x y z then some (cellAt w x y z h) else none

/-- Checked write `worldData[x][y][z] = v`; `none` is the Go index-out-of-range error. -/
def writeCell (w : World) (x y z : Int) (v : Int) : Option World :=
  if h : InGrid x y z then
    some (fun a b c =>
      if a = toIdx worldSizeX x h.1 ∧ b = toIdx worldSizeY y h.2.1 ∧ c = toIdx worldSizeZ z h.2.2
      then v else w a b c)
  else none

/-- Body of `isSolid`: the bounds guard, then the array read. -/
def isSolid (w : World) (x y z : Int) : Option Bool :=
  if x < 0 ∨ x ≥ worldSizeX ∨ y < 0 ∨ y ≥ worldSizeY ∨ z < 0 ∨ z ≥ worldSizeZ then
    some false
  else do
    let b ← readCell w x y z
    pure (decide (b ≠ BlockAir))

/-! ## Counted loops -/

/-- Run `body i`, `body (i+1)`, ... for `n` iterations, stopping at the first failure. -/
def loopFrom {σ : Type} (body : Int → σ → Option σ) : Nat → Int → σ → Option σ
  | 0, _, s => some s
  | n + 1, i, s => (body i s).bind (loopFrom body n (i + 1))

/-- The Go loop `for i := lo; i < hi; i++ { body }` where the body does not assign `i`. -/
def forLoop {σ : Type} (lo hi : Int) (body : Int → σ → Option σ) (s : σ) : Option σ :=
  loopFrom body (hi - lo).toNat lo s

/-! ## World generation -/

/-- Body of `setupWorld` for one column `(x, z)`. -/
def setupColumn (x z : Int) (w : World) : Option World := do
  let height : Int := worldSizeY / 2
  let w1 ← if height ≥ 0 ∧ height < worldSizeY then writeCell w x height z BlockGrass else some w
  let w2 ← forLoop 0 height (fun y w =>
    if y < height - 2 then writeCell w x y z BlockStone else writeCell w x y z BlockDirt) w1
  forLoop (height + 1) worldSizeY (fun y w => writeCell w x y z BlockAir) w2

/-- The function `setupWorld`: the `x` loop around the `z` loop around the column body. -/
def setupWorld (w : World) : Option World :=
  forLoop 0 worldSizeX (fun x w => forLoop 0 worldSizeZ (fun z w => setupColumn x z w) w) w

/-! ## Tile atlas -/

/-- The function `getBlockTileCoords`. -/
def getBlockTileCoords (blockType : Int) : Int × Int :=
  if blockType = BlockGrass then (0, 0)
  else if blockType = BlockDirt then (1, 0)
  else if blockType = BlockStone then (1, 0)
  else (15, 15)

/-! ## float32 arithmetic -/

/-- Nearest integer, a tie going to the even neighbour. -/
def roundHalfEven (q : ℚ) : Int :=
  let f : Int := ⌊q⌋
  if q - f < 1 / 2 then f
  else if 1 / 2 < q - f then f + 1
  else if f % 2 = 0 then f else f + 1

/-- Exponent of the binary32 unit in the last place at the magnitude of `q`: 24
significant bits in the binade of `q`, and the subnormal spacing `2^(-149)` below
`2^(-126)`. -/
def ulpExp32 (q : ℚ) : Int := max (Int.log 2 |q|) (-126) - 23

/-- The binary32 value nearest to `q`, ties to even. -/
def round32 (q : ℚ) : ℚ := (roundHalfEven (q / 2 ^ ulpExp32 q) : ℚ) * 2 ^ ulpExp32 q

/-- Addition at type `float32`. -/
def f32add (a b : ℚ) : ℚ := round32 (a + b)

/-- Subtraction at type `float32`. -/
def f32sub (a b : ℚ) : ℚ := round32 (a - b)

/-- Multiplication at type `float32`. -/
def f32mul (a b : ℚ) : ℚ := round32 (a * b)

/-! ## Vectors -/

/-- The type `mgl32.Vec3`; the components are `float32` values. -/
structure Vec3 where
  x : ℚ
  y : ℚ
  z : ℚ
  deriving DecidableEq

namespace Vec3

/-- Componentwise sum, `Vec3.Add`. -/
def add (a b : Vec3) : Vec3 := ⟨f32add a.x b.x, f32add a.y b.y, f32add a.z b.z⟩

/-- Componentwise difference, `Vec3.Sub`. -/
def sub (a b : Vec3) : Vec3 := ⟨f32sub a.x b.x, f32sub a.y b.y, f32sub a.z b.z⟩

/-- Scaling by a scalar, `Vec3.Mul`. -/
def mul (a : Vec3) (c : ℚ) : Vec3 := ⟨f32mul a.x c, f32mul a.y c, f32mul a.z c⟩

/-- Cross product, `Vec3.Cross`. -/
def cross (a b : Vec3) : Vec3 :=
  ⟨f32sub (f32mul a.y b.z) (f32mul a.z b.y),
   f32sub (f32mul a.z b.x) (f32mul a.x b.z),
   f32sub (f32mul a.x b.y) (f32mul a.y b.x)⟩

end Vec3

/-- The global `cameraUp`, initialised to (0,1,0) and never assigned afterwards. -/
def cameraUp : Vec3 := ⟨0, 1, 0⟩

/-! ## Camera state -/

/-- The mutable globals read and written by `mouseCallback` and `processInput`. -/
structure Camera where
  cameraPos : Vec3
  cameraFront : Vec3
  cameraYaw : ℚ
  cameraPitch : ℚ
  firstMouse : Bool
  lastX : ℚ
  lastY : ℚ
  onGround : Bool
  deriving DecidableEq

/-- The library functions used by `mouseCallback` that have no rational model. -/
structure MathEnv where
  degToRad : ℚ → ℚ
  cos : ℚ → ℚ
  sin : ℚ → ℚ
  normalize : Vec3 → Vec3

/-- The function `mouseCallback`. -/
def mouseCallback (env : MathEnv) (s : Camera) (xpos ypos : ℚ) : Camera :=
  let lastX0 := if s.firstMouse then xpos else s.lastX
  let lastY0 := if s.firstMouse then ypos else s.lastY
  let firstMouse := if s.firstMouse then false else s.firstMouse
  let xoffset := xpos - lastX0
  let yoffset := lastY0 - ypos
  let lastX := xpos
  let lastY := ypos
  let xoffset := xoffset * mouseSensitivity
  let yoffset := yoffset * mouseSensitivity
  let cameraYaw := s.cameraYaw + xoffset
  let cameraPitch := s.cameraPitch + yoffset
  let cameraPitch := if cameraPitch > 89 then 89 else cameraPitch
  let cameraPitch := if cameraPitch < -89 then -89 else cameraPitch
  let yawRad32 := env.degToRad cameraYaw
  let pitchRad32 := env.degToRad cameraPitch
  let cosYaw := env.cos yawRad32
  let cosPitch := env.cos pitchRad32
  let sinPitch := env.sin pitchRad32
  let sinYaw := env.sin yawRad32
  let front : Vec3 := ⟨cosYaw * cosPitch, sinPitch, sinYaw * cosPitch⟩
  { s with
    cameraFront := env.normalize front
    cameraYaw := cameraYaw
    cameraPitch := cameraPitch
    firstMouse := firstMouse
    lastX := lastX
    lastY := lastY }

/-- A sequence of cursor positions delivered to `mouseCallback`, one call each. -/
def mouseRun (env : MathEnv) (s : Camera) (ps : List (ℚ × ℚ)) : Camera :=
  ps.foldl (fun t p => mouseCallback env t p.1 p.2) s

/-! ## Keyboard step -/

/-- The results of the `window.GetKey(...) == glfw.Press` queries of one frame. -/
structure Keys where
  keyW : Bool
  keyS : Bool
  keyA : Bool
  keyD : Bool
  keySpace : Bool
  keyLeftShift : Bool
  keyLeftControl : Bool
  deriving DecidableEq

/-- The four horizontal-movement statements of `processInput`: the camera position
after the W, S, A and D tests. -/
def moveHorizontal (normalize : Vec3 → Vec3) (keys : Keys) (currentSpeed : ℚ)
    (cameraFront cameraPos : Vec3) : Vec3 :=
  let right := normalize (cameraFront.cross cameraUp)
  let forward := cameraFront
  let p := if keys.keyW then cameraPos.add (forward.mul currentSpeed) else cameraPos
  let p := if keys.keyS then p.sub (forward.mul currentSpeed) else p
  let p := if keys.keyA then p.sub (right.mul currentSpeed) else p
  let p := if keys.keyD then p.add (right.mul currentSpeed) else p
  p

/-- The function `processInput`, with the frame's key states, `deltaTime` (a `float64`)
and the grid.  The arithmetic on `dt`, `currentSpeed`, the feet heights and the
camera position is `float32` arithmetic. -/
def processInput (normalize : Vec3 → Vec3) (keys : Keys) (deltaTime : ℚ) (w : World)
    (s : Camera) : Option Camera := do
  let dt := round32 deltaTime
  let currentSpeed := f32mul (round32 moveSpeed) dt
  let pos1 := moveHorizontal normalize keys currentSpeed s.cameraFront s.cameraPos
  let feetY := f32sub pos1.y (round32 playerHeight)
  let feetX := pos1.x
  let feetZ := pos1.z
  let blockBelowX : Int := ⌊feetX⌋
  let blockBelowY : Int := ⌊f32sub feetY (round32 (1 / 10))⌋
  let blockBelowZ : Int := ⌊feetZ⌋
  let ground1 ← isSolid w blockBelowX blockBelowY blockBelowZ
  let pos2 := if keys.keySpace then pos1.add (cameraUp.mul currentSpeed) else pos1
  let ground2 := if keys.keySpace then false else ground1
  if keys.keyLeftShift || keys.keyLeftControl then
    let potentialFeetY := f32sub feetY currentSpeed
    let blockBelowNextX : Int := ⌊feetX⌋
    let blockBelowNextY : Int := ⌊potentialFeetY⌋
    let blockBelowNextZ : Int := ⌊feetZ⌋
    let solid ← isSolid w blockBelowNextX blockBelowNextY blockBelowNextZ
    if !solid then
      pure { s with cameraPos := pos2.sub (cameraUp.mul currentSpeed), onGround := false }
    else
      pure { s with
        cameraPos :=
          { pos2 with
            y := f32add (f32add (round32 ((blockBelowNextY + 1 : Int) : ℚ)) (round32 playerHeight))
              (round32 (1 / 100)) }
        onGround := true }
  else
    pure { s with cameraPos := pos2, onGround := ground2 }

/-! ## Rendering -/

/-- One `gl.DrawArrays(gl.TRIANGLES, first, count)` call, with the model translation
and the tile uniforms uploaded for it. -/
structure DrawCall where
  model : Vec3
  tileStartX : ℚ
  tileStartY : ℚ
  first : Int
  count : Int
  deriving DecidableEq

/-- Body of the innermost drawing loop for the cell `(x, y, z)`. -/
def drawCell (w : World) (x y z : Int) (calls : List DrawCall) : Option (List DrawCall) := do
  let blockType ← readCell w x y z
  if blockType ≠ BlockAir then
    let tile := getBlockTileCoords blockType
    let currentTileStartX := (tile.1 : ℚ) * tileSize
    let currentTileStartY := (tile.2 : ℚ) * tileSize
    pure (calls ++ [⟨⟨x, y, z⟩, currentTileStartX, currentTileStartY, 0, 36⟩])
  else
    pure calls

/-- The world-drawing loops of one frame: `x` outer, `y` middle, `z` inner.  The
result is the list of draw calls issued, in order. -/
def drawWorld (w : World) : Option (List DrawCall) :=
  forLoop 0 worldSizeX (fun x calls =>
    forLoop 0 worldSizeY (fun y calls =>
      forLoop 0 worldSizeZ (fun z calls => drawCell w x y z calls) calls) calls) []

/-! ## Startup -/

/-- The downward scan `for y := ...; y >= 0; y-- { if isSolid(...) { groundY = y; break } }`
with `n` iterations left; `groundY` keeps its initial value 0 when nothing is found. -/
def findGround (w : World) (startX startZ : Int) : Nat → Int → Option Int
  | 0, _ => some 0
  | n + 1, y => (isSolid w startX y startZ).bind (fun b =>
      if b then some y else findGround w startX startZ n (y - 1))

/-- The startup part of `main`: initial camera position, world generation, ground
scan and camera placement.  Returns the grid, `groundY` and `cameraPos`. -/
def startup (w0 : World) : Option (World × Int × Vec3) := do
  let initialX : ℚ := round32 ((worldSizeX / 2 : Nat) : ℚ)
  let initialZ : ℚ := round32 ((worldSizeZ / 2 : Nat) : ℚ)
  let cameraPos : Vec3 := ⟨initialX, round32 (worldSizeY : ℚ), initialZ⟩
  let w ← setupWorld w0
  let startX : Int := ⌊cameraPos.x⌋
  let startZ : Int := ⌊cameraPos.z⌋
  let groundY ← findGround w startX startZ worldSizeY ((worldSizeY : Int) - 1)
  pure (w, groundY,
    { cameraPos with
      y := f32add (f32add (round32 (groundY : ℚ)) (round32 (1 / 2))) (round32 playerHeight) })

/-! ## Closed forms used in the proofs -/

/-- Total description of `isSolid`: the value it returns on every input. -/
def solidAt (w : World) (x y z : Int) : Bool :=
  if h : InGrid x y z then decide (cellAt w x y z h ≠ BlockAir) else false

/-- The terrain profile of a column: the block at height `y`. -/
def terrain (y : Fin worldSizeY) : Int :=
  if y.val < 2 then BlockStone
  else if y.val < 4 then BlockDirt
  else if y.val = 4 then BlockGrass
  else BlockAir

/-- The flat world: every column carries the terrain profile. -/
def flatWorld : World := fun _ y _ => terrain y

/-- Number of cells of the grid that are not Air. -/
def nonAirCount (w : World) : Nat :=
  (Finset.univ.filter
    (fun c : Fin worldSizeX × Fin worldSizeY × Fin worldSizeZ => w c.1 c.2.1 c.2.2 ≠ BlockAir)).card

/-- Concatenation of `f 0`, `f 1`, ..., `f (n-1)`. -/
def emitAll {α : Type} (f : Nat → List α) : Nat → List α
  | 0 => []
  | n + 1 => emitAll f n ++ f n

/-- The draw calls issued for one cell: one for a non-Air cell, none for an Air cell. -/
def cellCalls (w : World) (a : Fin worldSizeX) (b : Fin worldSizeY) (c : Fin worldSizeZ) :
    List DrawCall :=
  if w a b c ≠ BlockAir then
    [⟨⟨((a.val : Int) : ℚ), ((b.val : Int) : ℚ), ((c.val : Int) : ℚ)⟩,
      ((getBlockTileCoords (w a b c)).1 : ℚ) * tileSize,
      ((getBlockTileCoords (w a b c)).2 : ℚ) * tileSize, 0, 36⟩]
  else []

/-- The draw calls of a cell given by natural-number indices (none outside the grid). -/
def cellCallsNat (w : World) (i j k : Nat) : List DrawCall :=
  if h : i < worldSizeX ∧ j < worldSizeY ∧ k < worldSizeZ then
    cellCalls w ⟨i, h.1⟩ ⟨j, h.2.1⟩ ⟨k, h.2.2⟩
  else []

/-! ## Concrete inputs used in the examples -/

/-- The value of `deltaTime` in a clamped frame: the `float64` constant 0.1. -/
def clampedDeltaTime : ℚ := 3602879701896397 / 36028797018963968

/-- The height at which the snap branch leaves a camera standing on the Grass layer
(block y = 4) of the flat world: the `float32` value of 5 + 1.8 + 0.01. -/
def restingHeight : ℚ := 7140803 / 1048576

/-- A camera standing on the Grass layer of the flat world. -/
def restingCamera : Camera :=
  ⟨⟨8, restingHeight, 8⟩, ⟨0, 0, -1⟩, -90, 0, true, 640, 360, true⟩

/-- A camera height (a `float32` value, about 7.0678) from which a descent step of
`grazingDeltaTime` reaches the top of the Grass layer up to rounding. -/
def grazingHeight : ℚ := 14822313 / 2097152

/-- A frame time (a `float32` value, about 0.067 s) below the 0.1 s clamp. -/
def grazingDeltaTime : ℚ := 1123361 / 16777216

/-- Only LeftShift is held. -/
def descendKeys : Keys := ⟨false, false, false, false, false, true, false⟩

/-- Only Space is held. -/
def ascendKeys : Keys := ⟨false, false, false, false, true, false, false⟩

/-- Space and LeftShift are held in the same frame. -/
def ascendDescendKeys : Keys := ⟨false, false, false, false, true, true, false⟩

/-- The camera globals as initialised by the `var` block, at a given position. -/
def initialCamera (pos : Vec3) : Camera :=
  ⟨pos, ⟨0, 0, -1⟩, -90, 0, true, 640, 360, false⟩

/-! ## Facts about the grid access -/

theorem inGrid_iff_guard (x y z : Int) :
    InGrid x y z ↔
      ¬ (x < 0 ∨ x ≥ worldSizeX ∨ y < 0 ∨ y ≥ worldSizeY ∨ z < 0 ∨ z ≥ worldSizeZ) := by
  unfold InGrid
  constructor
  · intro h; omega
  · intro h; omega

theorem isSolid_eq_solidAt (w : World) (x y z : Int) :
    isSolid w x y z = some (solidAt w x y z) := by
  unfold isSolid solidAt
  by_cases h : InGrid x y z
  · have hg := (inGrid_iff_guard x y z).1 h
    rw [if_neg hg, dif_pos h]
    simp [readCell, h]
  · have hg : x < 0 ∨ x ≥ worldSizeX ∨ y < 0 ∨ y ≥ worldSizeY ∨ z < 0 ∨ z ≥ worldSizeZ := by
      by_contra hc
      exact h ((inGrid_iff_guard x y z).2 hc)
    rw [if_pos hg, dif_neg h]

theorem writeCell_eq (w : World) (x y z v : Int)
    (hx : 0 ≤ x) (hx2 : x < 16) (hy : 0 ≤ y) (hy2 : y < 8) (hz : 0 ≤ z) (hz2 : z < 16) :
    writeCell w x y z v =
      some (fun a b c =>
        if (a.val : Int) = x ∧ (b.val : Int) = y ∧ (c.val : Int) = z then v else w a b c) := by
  have h : InGrid x y z := ⟨⟨hx, hx2⟩, ⟨hy, hy2⟩, ⟨hz, hz2⟩⟩
  unfold writeCell
  rw [dif_pos h]
  congr 1
  funext a b c
  have e1 : (a = toIdx worldSizeX x h.1) ↔ ((a.val : Int) = x) := by
    rw [Fin.ext_iff]; simp only [toIdx]; omega
  have e2 : (b = toIdx worldSizeY y h.2.1) ↔ ((b.val : Int) = y) := by
    rw [Fin.ext_iff]; simp only [toIdx]; omega
  have e3 : (c = toIdx worldSizeZ z h.2.2) ↔ ((c.val : Int) = z) := by
    rw [Fin.ext_iff]; simp only [toIdx]; omega
  simp only [e1, e2, e3]

/-- Loop rule: an invariant indexed by the number of completed iterations. -/
theorem loopFrom_invariant {σ : Type} (body : Int → σ → Option σ) :
    ∀ (n : Nat) (P : Nat → σ → Prop) (lo : Int) (s : σ), P 0 s →
      (∀ k t, k < n → P k t → ∃ t2, body (lo + k) t = some t2 ∧ P (k + 1) t2) →
      ∃ t, loopFrom body n lo s = some t ∧ P n t := by
  intro n
  induction n with
  | zero =>
    intro P lo s h0 _
    exact ⟨s, rfl, h0⟩
  | succ n ih =>
    intro P lo s h0 hstep
    obtain ⟨s1, hb, h1⟩ := hstep 0 s (Nat.succ_pos n) h0
    have hb2 : body lo s = some s1 := by simpa using hb
    have hrest := ih (fun k t => P (k + 1) t) (lo + 1) s1 h1 (by
      intro k t hk hP
      obtain ⟨t2, ht2, hP2⟩ := hstep (k + 1) t (Nat.succ_lt_succ hk) hP
      refine ⟨t2, ?_, hP2⟩
      have e : lo + 1 + (k : Int) = lo + ((k + 1 : Nat) : Int) := by push_cast; ring
      rw [e]; exact ht2)
    obtain ⟨t, ht, hPt⟩ := hrest
    refine ⟨t, ?_, hPt⟩
    simp only [loopFrom, hb2, Option.some_bind]
    exact ht

theorem setupColumn_eq (w : World) (x z : Int)
    (hx : 0 ≤ x) (hx2 : x < 16) (hz : 0 ≤ z) (hz2 : z < 16) :
    setupColumn x z w = some (fun a b c =>
      if (a.val : Int) = x ∧ (c.val : Int) = z then terrain b else w a b c) := by
  simp [setupColumn, forLoop, loopFrom, writeCell_eq, hx, hx2, hz, hz2]
  funext a b c
  by_cases h : (a.val : Int) = x ∧ (c.val : Int) = z
  · obtain ⟨h1, h2⟩ := h
    simp only [h1, h2, true_and, and_true, and_self, if_true]
    fin_cases b <;> simp [terrain]
  · have h3 : ∀ k : Int, ¬ ((a.val : Int) = x ∧ (b.val : Int) = k ∧ (c.val : Int) = z) := by
      intro k hk; exact h ⟨hk.1, hk.2.2⟩
    simp only [h3, h, if_false]
    rw [if_neg (fun hk => h ⟨hk.1, hk.2.2⟩), if_neg (fun hk => h ⟨hk.1, hk.2.2⟩)]

theorem setupRow_spec (w : World) (x : Int) (hx : 0 ≤ x) (hx2 : x < 16) :
    ∃ w2, forLoop 0 worldSizeZ (fun z w => setupColumn x z w) w = some w2 ∧
      ∀ a b c, w2 a b c = if (a.val : Int) = x then terrain b else w a b c := by
  have hn : ((worldSizeZ : Int) - 0).toNat = 16 := by decide
  unfold forLoop
  rw [hn]
  obtain ⟨t, ht, hP⟩ := loopFrom_invariant (fun z w => setupColumn x z w) 16
    (fun k t => ∀ a b c,
      t a b c = if (a.val : Int) = x ∧ c.val < k then terrain b else w a b c) 0 w
    (by intro a b c; simp)
    (by
      intro k t hk hP
      refine ⟨_, setupColumn_eq t x (0 + k) hx hx2 (by omega) (by omega), ?_⟩
      intro a b c
      by_cases h1 : (a.val : Int) = x
      · by_cases h2 : c.val < k
        · have h3 : c.val < k + 1 := by omega
          simp [h1, h2, h3, hP a b c]
        · by_cases h4 : c.val = k
          · simp [h1, h4]
          · have h5 : ¬ c.val < k + 1 := by omega
            have h6 : ¬ ((c.val : Int) = 0 + (k : Int)) := by omega
            simp [h1, h2, h4, h5, h6, hP a b c]
      · simp [h1, hP a b c])
  refine ⟨t, ht, ?_⟩
  intro a b c
  have hc : c.val < 16 := c.isLt
  simp [hP a b c, hc]

theorem setupWorld_eq (w : World) : setupWorld w = some flatWorld := by
  have hn : ((worldSizeX : Int) - 0).toNat = 16 := by decide
  unfold setupWorld forLoop
  rw [hn]
  obtain ⟨t, ht, hP⟩ := loopFrom_invariant
    (fun x w => loopFrom (fun z w => setupColumn x z w) 16 0 w) 16
    (fun k t => ∀ a b c, t a b c = if a.val < k then terrain b else w a b c) 0 w
    (by intro a b c; simp)
    (by
      intro k t hk hP
      obtain ⟨t2, ht2, hQ⟩ := setupRow_spec t (0 + k) (by omega) (by omega)
      unfold forLoop at ht2
      rw [hn] at ht2
      refine ⟨t2, ht2, ?_⟩
      intro a b c
      rw [hQ a b c, hP a b c]
      by_cases h1 : a.val < k
      · have h2 : a.val < k + 1 := by omega
        simp [h1, h2]
      · by_cases h3 : a.val = k
        · simp [h3]
        · have h4 : ¬ a.val < k + 1 := by omega
          have h5 : ¬ ((a.val : Int) = 0 + (k : Int)) := by omega
          simp [h1, h3, h4, h5])
  rw [ht]
  congr 1
  funext a b c
  have ha : a.val < 16 := a.isLt
  simp [hP a b c, ha, flatWorld]

theorem mouseCallback_pitch_bounds (env : MathEnv) (s : Camera) (xpos ypos : ℚ) :
    -89 ≤ (mouseCallback env s xpos ypos).cameraPitch ∧
      (mouseCallback env s xpos ypos).cameraPitch ≤ 89 := by
  simp only [mouseCallback]
  constructor <;> split_ifs <;> linarith

theorem mouseRun_snoc (env : MathEnv) (s : Camera) (ps : List (ℚ × ℚ)) (p : ℚ × ℚ) :
    mouseRun env s (ps ++ [p]) = mouseCallback env (mouseRun env s ps) p.1 p.2 := by
  simp [mouseRun, List.foldl_append]

/-! ## Facts about float32 rounding -/

theorem roundHalfEven_intCast (n : Int) : roundHalfEven (n : ℚ) = n := by
  simp [roundHalfEven]

theorem roundHalfEven_near (q : ℚ) :
    q - 1 / 2 ≤ (roundHalfEven q : ℚ) ∧ (roundHalfEven q : ℚ) ≤ q + 1 / 2 := by
  have h1 := Int.floor_le q
  have h2 := Int.lt_floor_add_one q
  simp only [roundHalfEven]
  split_ifs <;> push_cast <;> constructor <;> linarith

theorem round32_zero : round32 0 = 0 := by
  simp [round32, roundHalfEven]

/-- A multiple of a power of two at or above the unit in the last place is a float32. -/
theorem round32_mul_zpow (m k : Int) (h : ulpExp32 ((m : ℚ) * 2 ^ k) ≤ k) :
    round32 ((m : ℚ) * 2 ^ k) = (m : ℚ) * 2 ^ k := by
  have h2 : (2 : ℚ) ≠ 0 := by norm_num
  obtain ⟨n, hn⟩ := Int.eq_ofNat_of_zero_le (sub_nonneg.mpr h)
  have hk : k = ulpExp32 ((m : ℚ) * 2 ^ k) + (n : Int) := by omega
  have key : ∀ e : Int, k = e + (n : Int) →
      (m : ℚ) * 2 ^ k / 2 ^ e = ((m * 2 ^ n : Int) : ℚ) := by
    intro e he
    rw [he, zpow_add₀ h2, zpow_natCast]
    push_cast
    field_simp
    ring
  have hq := key _ hk
  unfold round32
  rw [hq, roundHalfEven_intCast, ← hq]
  field_simp

theorem round32_idem (q : ℚ) : round32 (round32 q) = round32 q := by
  have h2 : (2 : ℚ) ≠ 0 := by norm_num
  have hpos : ∀ z : Int, (0 : ℚ) < 2 ^ z := fun z => zpow_pos (by norm_num) z
  by_cases hr0 : round32 q = 0
  · rw [hr0, round32_zero]
  set E : Int := max (Int.log 2 |q|) (-126) with hE
  have he : ulpExp32 q = E - 23 := rfl
  set m : Int := roundHalfEven (q / 2 ^ ulpExp32 q) with hm
  have hr : round32 q = (m : ℚ) * 2 ^ (E - 23) := by rw [hm, ← he]; rfl
  have hqlt : |q| < 2 ^ (E + 1) := by
    have h1 := Int.lt_zpow_succ_log_self (b := 2) (by norm_num) (|q|)
    have h3 : (2 : ℚ) ^ (Int.log 2 |q| + 1) ≤ 2 ^ (E + 1) :=
      zpow_le_zpow_right₀ (by norm_num) (by have := le_max_left (Int.log 2 |q|) (-126); omega)
    have h4 : ((2 : ℕ) : ℚ) = 2 := by norm_num
    rw [h4] at h1
    exact lt_of_lt_of_le h1 h3
  have hsplit : (2 : ℚ) ^ (E + 1) = 2 ^ (24 : ℕ) * 2 ^ (E - 23) := by
    rw [← zpow_natCast, ← zpow_add₀ h2]
    congr 1
    omega
  have habs : |q / 2 ^ (E - 23)| < 2 ^ (24 : ℕ) := by
    rw [abs_div, abs_of_pos (hpos _), div_lt_iff₀ (hpos _), ← hsplit]
    exact hqlt
  have hmle : |m| ≤ 2 ^ (24 : ℕ) := by
    have hn := roundHalfEven_near (q / 2 ^ (E - 23))
    rw [he] at hm
    rw [← hm] at hn
    rw [abs_lt] at habs
    have h5 : ((|m| : Int) : ℚ) < 2 ^ (24 : ℕ) + 1 := by
      push_cast
      rw [abs_lt]
      constructor <;> linarith [hn.1, hn.2, habs.1, habs.2]
    have h6 : |m| < 2 ^ (24 : ℕ) + 1 := by exact_mod_cast h5
    omega
  rcases lt_or_eq_of_le hmle with hlt | heq
  · rw [hr]
    apply round32_mul_zpow
    have hrpos : (0 : ℚ) < |(m : ℚ) * 2 ^ (E - 23)| := by
      rw [abs_pos, ← hr]; exact hr0
    have hrlt : |(m : ℚ) * 2 ^ (E - 23)| < ((2 : ℕ) : ℚ) ^ (E + 1) := by
      rw [abs_mul, abs_of_pos (hpos _)]
      have h4 : ((2 : ℕ) : ℚ) = 2 := by norm_num
      rw [h4, hsplit]
      apply mul_lt_mul_of_pos_right _ (hpos _)
      have : ((|m| : Int) : ℚ) < ((2 ^ (24 : ℕ) : Int) : ℚ) := by exact_mod_cast hlt
      push_cast at this
      exact this
    have hlog := (Int.lt_zpow_iff_log_lt (b := 2) (by norm_num) hrpos).1 hrlt
    unfold ulpExp32
    have : (-126 : Int) ≤ E := le_max_right _ _
    have hmax : max (Int.log 2 |(m : ℚ) * 2 ^ (E - 23)|) (-126) ≤ E := max_le (by omega) this
    omega
  · -- the significand overflowed to 2^24: the result is a power of two in the next binade
    have hE126 : (-126 : Int) ≤ E := le_max_right _ _
    have hm2 : ∃ s : Int, |s| = 2 ^ (23 : ℕ) ∧ m = 2 * s := by
      rcases abs_eq (by positivity : (0 : Int) ≤ 2 ^ (24 : ℕ)) |>.1 heq with h | h
      · exact ⟨2 ^ (23 : ℕ), by norm_num, by rw [h]; norm_num⟩
      · exact ⟨-2 ^ (23 : ℕ), by norm_num, by rw [h]; norm_num⟩
    obtain ⟨s, hs, hms⟩ := hm2
    have hr2 : round32 q = (s : ℚ) * 2 ^ (E - 22) := by
      rw [hr, hms]
      have : (2 : ℚ) ^ (E - 22) = 2 * 2 ^ (E - 23) := by
        rw [show E - 22 = 1 + (E - 23) by omega, zpow_add₀ h2, zpow_one]
      rw [this]; push_cast; ring
    rw [hr2]
    apply round32_mul_zpow
    have habs2 : |(s : ℚ) * 2 ^ (E - 22)| = ((2 : ℕ) : ℚ) ^ (E + 1) := by
      rw [abs_mul, abs_of_pos (hpos _)]
      have h7 : |(s : ℚ)| = 2 ^ (23 : ℕ) := by
        have : ((|s| : Int) : ℚ) = ((2 ^ (23 : ℕ) : Int) : ℚ) := by rw [hs]
        push_cast at this
        exact this
      rw [h7, ← zpow_natCast, ← zpow_add₀ h2]
      have h4 : ((2 : ℕ) : ℚ) = 2 := by norm_num
      rw [h4]
      congr 1
      omega
    unfold ulpExp32
    rw [habs2, Int.log_zpow (by norm_num)]
    have : max (E + 1) (-126) = E + 1 := max_eq_left (by omega)
    omega

theorem cameraUp_mul_round32 (t : ℚ) : cameraUp.mul (round32 t) = ⟨0, round32 t, 0⟩ := by
  simp [cameraUp, Vec3.mul, f32mul, round32_zero, round32_idem]

/-- Value of `processInput` with the grid reads resolved. -/
theorem processInput_eq (normalize : Vec3 → Vec3) (keys : Keys) (deltaTime : ℚ) (w : World)
    (s : Camera) :
    processInput normalize keys deltaTime w s =
      some
        (let currentSpeed := f32mul (round32 moveSpeed) (round32 deltaTime)
         let pos1 := moveHorizontal normalize keys currentSpeed s.cameraFront s.cameraPos
         let feetY := f32sub pos1.y (round32 playerHeight)
         let pos2 : Vec3 :=
           if keys.keySpace then ⟨round32 pos1.x, f32add pos1.y currentSpeed, round32 pos1.z⟩
           else pos1
         if keys.keyLeftShift || keys.keyLeftControl then
           if solidAt w ⌊pos1.x⌋ ⌊f32sub feetY currentSpeed⌋ ⌊pos1.z⌋ then
             { s with
               cameraPos :=
                 ⟨pos2.x,
                  f32add (f32add (round32 ((⌊f32sub feetY currentSpeed⌋ + 1 : Int) : ℚ))
                    (round32 playerHeight)) (round32 (1 / 100)),
                  pos2.z⟩
               onGround := true }
           else
             { s with
               cameraPos := ⟨round32 pos2.x, f32sub pos2.y currentSpeed, round32 pos2.z⟩
               onGround := false }
         else
           { s with
             cameraPos := pos2
             onGround :=
               if keys.keySpace then false
               else solidAt w ⌊pos1.x⌋ ⌊f32sub feetY (round32 (1 / 10))⌋ ⌊pos1.z⌋ }) := by
  have hcs : cameraUp.mul (f32mul (round32 moveSpeed) (round32 deltaTime))
      = ⟨0, f32mul (round32 moveSpeed) (round32 deltaTime), 0⟩ := cameraUp_mul_round32 _
  simp only [processInput, isSolid_eq_solidAt, hcs, Vec3.add, Vec3.sub, f32add, f32sub,
    add_zero, sub_zero]
  simp only [Option.pure_def, Option.bind_eq_bind, Option.some_bind]
  by_cases hd : (keys.keyLeftShift || keys.keyLeftControl) = true
  · by_cases hs : solidAt w
        ⌊(moveHorizontal normalize keys (f32mul (round32 moveSpeed) (round32 deltaTime))
          s.cameraFront s.cameraPos).x⌋
        ⌊round32 (round32 ((moveHorizontal normalize keys
          (f32mul (round32 moveSpeed) (round32 deltaTime)) s.cameraFront s.cameraPos).y
            - round32 playerHeight) - f32mul (round32 moveSpeed) (round32 deltaTime))⌋
        ⌊(moveHorizontal normalize keys (f32mul (round32 moveSpeed) (round32 deltaTime))
          s.cameraFront s.cameraPos).z⌋ = true
    · cases hk : keys.keySpace <;> simp [hd, hs, hk]
    · cases hk : keys.keySpace <;> simp [hd, hs, hk]
  · cases hk : keys.keySpace <;> simp [hd, hk]

theorem loopFrom_emit {α : Type} (body : Int → List α → Option (List α)) (f : Nat → List α)
    (n : Nat) (lo : Int) (s : List α)
    (hbody : ∀ k t, k < n → body (lo + k) t = some (t ++ f k)) :
    loopFrom body n lo s = some (s ++ emitAll f n) := by
  obtain ⟨t, ht, hP⟩ := loopFrom_invariant body n (fun k t => t = s ++ emitAll f k) lo s
    (by simp [emitAll])
    (by
      intro k t hk hP
      refine ⟨_, hbody k t hk, ?_⟩
      rw [hP]
      simp [emitAll])
  rw [ht, hP]

theorem countP_emitAll {α : Type} (p : α → Bool) (f : Nat → List α) (n : Nat) :
    (emitAll f n).countP p = ∑ k in Finset.range n, (f k).countP p := by
  induction n with
  | zero => simp [emitAll]
  | succ n ih => simp [emitAll, Finset.sum_range_succ, ih]

theorem drawCell_eq (w : World) (i j k : Nat) (hi : i < 16) (hj : j < 8) (hk : k < 16)
    (calls : List DrawCall) :
    drawCell w (0 + i) (0 + j) (0 + k) calls = some (calls ++ cellCallsNat w i j k) := by
  have h : InGrid (0 + (i : Int)) (0 + (j : Int)) (0 + (k : Int)) := by
    unfold InGrid worldSizeX worldSizeY worldSizeZ; omega
  have hc : cellAt w (0 + (i : Int)) (0 + (j : Int)) (0 + (k : Int)) h = w ⟨i, hi⟩ ⟨j, hj⟩ ⟨k, hk⟩ := by
    simp [cellAt, toIdx]
  have h3 : i < worldSizeX ∧ j < worldSizeY ∧ k < worldSizeZ := ⟨hi, hj, hk⟩
  unfold drawCell readCell cellCallsNat cellCalls
  rw [dif_pos h, dif_pos h3, hc]
  by_cases hne : w ⟨i, hi⟩ ⟨j, hj⟩ ⟨k, hk⟩ ≠ BlockAir
  · simp [hne]
  · simp [hne]

theorem drawWorld_eq (w : World) :
    drawWorld w = some (emitAll (fun i => emitAll (fun j => emitAll (fun k =>
      cellCallsNat w i j k) 16) 8) 16) := by
  have hx : ((worldSizeX : Int) - 0).toNat = 16 := by decide
  have hy : ((worldSizeY : Int) - 0).toNat = 8 := by decide
  unfold drawWorld forLoop
  rw [hx, hy]
  have h := loopFrom_emit
    (fun x calls => loopFrom (fun y calls => loopFrom (fun z calls => drawCell w x y z calls)
      16 0 calls) 8 0 calls)
    (fun i => emitAll (fun j => emitAll (fun k => cellCallsNat w i j k) 16) 8) 16 0 []
    (by
      intro i t hi
      exact loopFrom_emit _ (fun j => emitAll (fun k => cellCallsNat w i j k) 16) 8 0 t (by
        intro j t2 hj
        exact loopFrom_emit _ (fun k => cellCallsNat w i j k) 16 0 t2 (by
          intro k t3 hk
          exact drawCell_eq w i j k hi hj hk t3)))
  simpa using h

theorem cellCallsNat_fin (w : World) (a : Fin worldSizeX) (b : Fin worldSizeY)
    (c : Fin worldSizeZ) : cellCallsNat w a.val b.val c.val = cellCalls w a b c := by
  have h : a.val < worldSizeX ∧ b.val < worldSizeY ∧ c.val < worldSizeZ :=
    ⟨a.isLt, b.isLt, c.isLt⟩
  unfold cellCallsNat
  rw [dif_pos h]

theorem countP_allCalls (w : World) (p : DrawCall → Bool) :
    (emitAll (fun i => emitAll (fun j => emitAll (fun k =>
      cellCallsNat w i j k) 16) 8) 16).countP p
      = ∑ a : Fin worldSizeX, ∑ b : Fin worldSizeY, ∑ c : Fin worldSizeZ,
          (cellCalls w a b c).countP p := by
  rw [countP_emitAll]
  rw [← Fin.sum_univ_eq_sum_range
    (fun i => (emitAll (fun j => emitAll (fun k => cellCallsNat w i j k) 16) 8).countP p) 16]
  refine Finset.sum_congr rfl (fun a _ => ?_)
  rw [countP_emitAll]
  rw [← Fin.sum_univ_eq_sum_range
    (fun j => (emitAll (fun k => cellCallsNat w a.val j k) 16).countP p) 8]
  refine Finset.sum_congr rfl (fun b _ => ?_)
  rw [countP_emitAll]
  rw [← Fin.sum_univ_eq_sum_range (fun k => (cellCallsNat w a.val b.val k).countP p) 16]
  refine Finset.sum_congr rfl (fun c _ => ?_)
  rw [cellCallsNat_fin]

theorem length_allCalls (w : World) :
    (emitAll (fun i => emitAll (fun j => emitAll (fun k =>
      cellCallsNat w i j k) 16) 8) 16).length = nonAirCount w := by
  have h := countP_allCalls w (fun _ => true)
  rw [List.countP_true] at h
  rw [h]
  unfold nonAirCount
  rw [Finset.card_filter, Fintype.sum_prod_type]
  refine Finset.sum_congr rfl (fun a _ => ?_)
  rw [Fintype.sum_prod_type]
  refine Finset.sum_congr rfl (fun b _ => ?_)
  refine Finset.sum_congr rfl (fun c _ => ?_)
  unfold cellCalls
  by_cases hne : w a b c ≠ BlockAir
  · simp [hne]
  · simp [hne]

theorem countP_cell_allCalls (w : World) (a : Fin worldSizeX) (b : Fin worldSizeY)
    (c : Fin worldSizeZ) :
    (emitAll (fun i => emitAll (fun j => emitAll (fun k =>
      cellCallsNat w i j k) 16) 8) 16).countP
        (fun d => decide (d.model = ⟨((a.val : Int) : ℚ), ((b.val : Int) : ℚ), ((c.val : Int) : ℚ)⟩))
      = if w a b c ≠ BlockAir then 1 else 0 := by
  rw [countP_allCalls]
  rw [Finset.sum_eq_single a, Finset.sum_eq_single b, Finset.sum_eq_single c]
  · unfold cellCalls
    by_cases hne : w a b c ≠ BlockAir
    · simp [hne]
    · simp [hne]
  · intro c2 _ hc
    unfold cellCalls
    have : c2.val ≠ c.val := fun h => hc (Fin.ext h)
    by_cases hne : w a b c2 ≠ BlockAir
    · simp [hne, this]
    · simp [hne]
  · intro h; exact absurd (Finset.mem_univ c) h
  · intro b2 _ hb
    have : b2.val ≠ b.val := fun h => hb (Fin.ext h)
    refine Finset.sum_eq_zero (fun c2 _ => ?_)
    unfold cellCalls
    by_cases hne : w a b2 c2 ≠ BlockAir
    · simp [hne, this]
    · simp [hne]
  · intro h; exact absurd (Finset.mem_univ b) h
  · intro a2 _ ha
    have : a2.val ≠ a.val := fun h => ha (Fin.ext h)
    refine Finset.sum_eq_zero (fun b2 _ => Finset.sum_eq_zero (fun c2 _ => ?_))
    unfold cellCalls
    by_cases hne : w a2 b2 c2 ≠ BlockAir
    · simp [hne, this]
    · simp [hne]
  · intro h; exact absurd (Finset.mem_univ a) h

theorem nonAirCount_flatWorld : nonAirCount flatWorld = 1280 := by
  have hb : ∑ b : Fin worldSizeY, (if terrain b ≠ BlockAir then 1 else 0) = 5 := by decide
  unfold nonAirCount
  rw [Finset.card_filter, Fintype.sum_prod_type]
  simp only [Fintype.sum_prod_type, flatWorld]
  have hc : ∀ b : Fin worldSizeY,
      (∑ _c : Fin worldSizeZ, (if terrain b ≠ BlockAir then 1 else 0))
        = 16 * (if terrain b ≠ BlockAir then 1 else 0) := by
    intro b
    rw [Finset.sum_const, Finset.card_univ, Fintype.card_fin, smul_eq_mul]
  simp only [hc]
  rw [← Finset.mul_sum, hb, Finset.sum_const, Finset.card_univ, Fintype.card_fin, smul_eq_mul]
  rfl

/-! ## Claims -/

/-- C1: for every grid and all integers x, y, z, `isSolid` returns a value (the array
read it performs is never out of range), the value is true exactly when the
coordinates are inside the 16x8x16 grid and the cell there is not Air, and it is
false for every coordinate outside the grid. -/
theorem isSolid_total_and_exact (w : World) (x y z : Int) :
    ∃ b : Bool, isSolid w x y z = some b ∧
      (b = true ↔
        ∃ h : (0 ≤ x ∧ x < 16) ∧ (0 ≤ y ∧ y < 8) ∧ (0 ≤ z ∧ z < 16),
          cellAt w x y z h ≠ BlockAir) ∧
      (¬ ((0 ≤ x ∧ x < 16) ∧ (0 ≤ y ∧ y < 8) ∧ (0 ≤ z ∧ z < 16)) → b = false) := by
  refine ⟨solidAt w x y z, isSolid_eq_solidAt w x y z, ?_, ?_⟩
  · unfold solidAt
    by_cases h : InGrid x y z
    · simp only [h, dite_true, decide_eq_true_eq]
      constructor
      · intro hne; exact ⟨h, hne⟩
      · rintro ⟨_, hne⟩; exact hne
    · simp only [h, dite_false]
      constructor
      · intro hf; cases hf
      · rintro ⟨h2, _⟩; exact absurd h2 h
  · intro hout
    unfold solidAt
    have h : ¬ InGrid x y z := hout
    simp [h]

/-- C2: whatever the grid held before, `setupWorld` returns a grid in which every
column (x,z) has, with H = worldSizeY/2 = 4, Stone below H-2, Dirt on [H-2,H), Grass
at H and Air above H; the result is the same for every prior grid. -/
theorem setupWorld_layers (w0 : World) :
    ∃ w, setupWorld w0 = some w ∧
      (∀ (x : Fin 16) (z : Fin 16) (y : Fin 8),
        (y.val < worldSizeY / 2 - 2 → w x y z = BlockStone) ∧
        (worldSizeY / 2 - 2 ≤ y.val ∧ y.val < worldSizeY / 2 → w x y z = BlockDirt) ∧
        (y.val = worldSizeY / 2 → w x y z = BlockGrass) ∧
        (worldSizeY / 2 < y.val → w x y z = BlockAir)) ∧
      worldSizeY / 2 = 4 ∧
      (∀ w1 : World, setupWorld w1 = some w) := by
  refine ⟨flatWorld, setupWorld_eq w0, ?_, rfl, fun w1 => setupWorld_eq w1⟩
  intro x z y
  have h4 : worldSizeY / 2 = 4 := rfl
  rw [h4]
  simp only [flatWorld, terrain]
  refine ⟨?_, ?_, ?_, ?_⟩
  · intro h; simp at h; simp [h]
  · rintro ⟨h1, h2⟩
    have h3 : ¬ y.val < 2 := by omega
    simp [h2, h3]
  · intro h; simp [h]
  · intro h
    have h1 : ¬ y.val < 2 := by omega
    have h2 : ¬ y.val < 4 := by omega
    have h3 : ¬ y.val = 4 := by omega
    simp [h1, h2, h3]

/-- C7: Grass and Stone get different tiles, Dirt and Stone get the same tile, and
every block code other than Grass, Dirt and Stone (Air, negative codes, codes of 4
and above) gets the sentinel tile (15,15), whose column and row are inside the
16x16 atlas. -/
theorem getBlockTileCoords_mapping :
    getBlockTileCoords BlockGrass ≠ getBlockTileCoords BlockStone ∧
    getBlockTileCoords BlockDirt = getBlockTileCoords BlockStone ∧
    (∀ b : Int, b ≠ BlockGrass → b ≠ BlockDirt → b ≠ BlockStone →
      getBlockTileCoords b = (15, 15)) ∧
    getBlockTileCoords BlockAir = (15, 15) ∧
    (0 ≤ (15 : Int) ∧ (15 : Int) < atlasDimension) := by
  refine ⟨by decide, by decide, ?_, by decide, by decide⟩
  intro b h1 h2 h3
  simp [getBlockTileCoords, h1, h2, h3]

/-- C5: from any yaw/pitch state, after the last call of every non-empty sequence of
cursor positions delivered to `mouseCallback` the stored pitch lies in [-89, 89]; every
call of a longer sequence is the last call of one of its prefixes. -/
theorem mouseCallback_pitch_clamped (env : MathEnv) (s0 : Camera) (ps : List (ℚ × ℚ))
    (p : ℚ × ℚ) :
    -89 ≤ (mouseRun env s0 (ps ++ [p])).cameraPitch ∧
      (mouseRun env s0 (ps ++ [p])).cameraPitch ≤ 89 := by
  rw [mouseRun_snoc]
  exact mouseCallback_pitch_bounds env _ _ _

/-- C6: for every grid the drawing loops return, issue as many DrawArrays calls as
there are non-Air cells, and issue exactly one call for each non-Air cell and none for
an Air cell; on the grid produced by `setupWorld` that is 16*16*5 = 1280 calls, one for
each cell of the layers y = 0..4 and none for the layers y = 5..7. -/
theorem drawWorld_one_call_per_solid_cell :
    (∀ w : World, ∃ calls, drawWorld w = some calls ∧
      calls.length = nonAirCount w ∧
      ∀ (a : Fin 16) (b : Fin 8) (c : Fin 16),
        calls.countP (fun d =>
            decide (d.model = ⟨((a.val : Int) : ℚ), ((b.val : Int) : ℚ), ((c.val : Int) : ℚ)⟩))
          = if w a b c ≠ BlockAir then 1 else 0) ∧
    (∀ w0 : World, ∃ w calls, setupWorld w0 = some w ∧ drawWorld w = some calls ∧
      calls.length = 16 * 16 * 5 ∧ calls.length = 1280 ∧
      ∀ (a : Fin 16) (b : Fin 8) (c : Fin 16),
        calls.countP (fun d =>
            decide (d.model = ⟨((a.val : Int) : ℚ), ((b.val : Int) : ℚ), ((c.val : Int) : ℚ)⟩))
          = if b.val ≤ 4 then 1 else 0) := by
  constructor
  · intro w
    exact ⟨_, drawWorld_eq w, length_allCalls w, fun a b c => countP_cell_allCalls w a b c⟩
  · intro w0
    refine ⟨flatWorld, _, setupWorld_eq w0, drawWorld_eq flatWorld, ?_, ?_, ?_⟩
    · rw [length_allCalls, nonAirCount_flatWorld]
    · rw [length_allCalls, nonAirCount_flatWorld]
    · intro a b c
      rw [countP_cell_allCalls]
      have hb : (flatWorld a b c ≠ BlockAir) ↔ b.val ≤ 4 := by
        simp only [flatWorld]
        revert b
        decide
      simp only [hb]

/-- C3 (amended): in a frame where the descend key (LeftShift or LeftControl) is held and
the ascend key is not, with currentSpeed = float32(moveSpeed) * float32(deltaTime),
feetY = cameraY - playerHeight taken after horizontal movement and the candidate cell
(floor feetX, floor(feetY - currentSpeed), floor feetZ), all in float32 arithmetic:
`processInput` returns; if the candidate cell is solid, cameraY is set to the float32
sum float32(candidate y + 1) + playerHeight + 0.01 and onGround = true; if it is not
solid, cameraY is set to the float32 difference cameraY - currentSpeed and
onGround = false. -/
theorem processInput_descend (normalize : Vec3 → Vec3) (keys : Keys) (deltaTime : ℚ)
    (w : World) (s : Camera)
    (hup : keys.keySpace = false)
    (hdown : keys.keyLeftShift = true ∨ keys.keyLeftControl = true) :
    let currentSpeed := f32mul (round32 moveSpeed) (round32 deltaTime)
    let pos1 := moveHorizontal normalize keys currentSpeed s.cameraFront s.cameraPos
    let feetY := f32sub pos1.y (round32 playerHeight)
    let candY : Int := ⌊f32sub feetY currentSpeed⌋
    ∃ s2 solid,
      processInput normalize keys deltaTime w s = some s2 ∧
      isSolid w ⌊pos1.x⌋ candY ⌊pos1.z⌋ = some solid ∧
      (solid = true →
        s2.cameraPos.y =
          f32add (f32add (round32 ((candY + 1 : Int) : ℚ)) (round32 playerHeight))
            (round32 (1 / 100)) ∧
        s2.onGround = true) ∧
      (solid = false →
        s2.cameraPos.y = f32sub pos1.y currentSpeed ∧ s2.onGround = false) := by
  intro currentSpeed pos1 feetY candY
  have hd : (keys.keyLeftShift || keys.keyLeftControl) = true := by
    rcases hdown with h | h <;> simp [h]
  refine ⟨_, _, processInput_eq normalize keys deltaTime w s, isSolid_eq_solidAt _ _ _ _, ?_, ?_⟩
  · intro hs
    have hs2 : solidAt w ⌊pos1.x⌋ ⌊f32sub feetY currentSpeed⌋ ⌊pos1.z⌋ = true := hs
    simp only [hd, hup, if_true, hs2]
    exact ⟨trivial, trivial⟩
  · intro hs
    have hs2 : solidAt w ⌊pos1.x⌋ ⌊f32sub feetY currentSpeed⌋ ⌊pos1.z⌋ = false := hs
    simp only [hd, hup, if_true, hs2]
    simp [pos1, currentSpeed]

/-- C3 at two concrete clamped frames on the flat world with only LeftShift held.  From
cameraY = 6.875 the candidate cell (8,4,8) is solid and the camera is snapped to the
resting height with onGround = true; from cameraY = 7.5 the candidate cell (8,5,8) is
not solid and the camera descends to the float32 value 14889779/2097152 with
onGround = false. -/
theorem processInput_descend_witness :
    (∃ s2, processInput id descendKeys clampedDeltaTime flatWorld (initialCamera ⟨8, 55 / 8, 8⟩)
        = some s2 ∧ s2.cameraPos.y = restingHeight ∧ s2.onGround = true) ∧
    (∃ s2, processInput id descendKeys clampedDeltaTime flatWorld (initialCamera ⟨8, 15 / 2, 8⟩)
        = some s2 ∧ s2.cameraPos.y = 14889779 / 2097152 ∧ s2.onGround = false) := by
  constructor
  · obtain ⟨s2, solid, h1, h2, h3, _⟩ := processInput_descend id descendKeys clampedDeltaTime
      flatWorld (initialCamera ⟨8, 55 / 8, 8⟩) rfl (Or.inl rfl)
    have hs : solid = true := Option.some.inj (h2.symm.trans (by decide!))
    exact ⟨s2, h1, (h3 hs).1.trans (by decide!), (h3 hs).2⟩
  · obtain ⟨s2, solid, h1, h2, _, h4⟩ := processInput_descend id descendKeys clampedDeltaTime
      flatWorld (initialCamera ⟨8, 15 / 2, 8⟩) rfl (Or.inl rfl)
    have hs : solid = false := Option.some.inj (h2.symm.trans (by decide!))
    exact ⟨s2, h1, (h4 hs).1.trans (by decide!), (h4 hs).2⟩

/-- C3 as stated fails on the free-descent step: in a clamped frame on the flat world,
from cameraY = 7.5 with only LeftShift held, the candidate cell (8,5,8) is not solid and
cameraY becomes 14889779/2097152; the decrease is 838861/2097152 (about 0.40000010),
which is neither moveSpeed * deltaTime, nor moveSpeed * float32(deltaTime), nor 0.4. -/
theorem processInput_descend_counterexample :
    descendKeys.keySpace = false ∧ descendKeys.keyLeftShift = true ∧
    isSolid flatWorld 8 5 8 = some false ∧
    ⌊f32sub (f32sub (15 / 2) (round32 playerHeight))
        (f32mul (round32 moveSpeed) (round32 clampedDeltaTime))⌋ = 5 ∧
    ∃ s2, processInput id descendKeys clampedDeltaTime flatWorld (initialCamera ⟨8, 15 / 2, 8⟩)
        = some s2 ∧
      s2.onGround = false ∧
      (15 / 2 : ℚ) - s2.cameraPos.y = 838861 / 2097152 ∧
      (15 / 2 : ℚ) - s2.cameraPos.y ≠ moveSpeed * clampedDeltaTime ∧
      (15 / 2 : ℚ) - s2.cameraPos.y ≠ moveSpeed * round32 clampedDeltaTime ∧
      (15 / 2 : ℚ) - s2.cameraPos.y ≠ 4 * (1 / 10) := by
  refine ⟨rfl, rfl, by decide, by decide!, ?_⟩
  have h : processInput id descendKeys clampedDeltaTime flatWorld (initialCamera ⟨8, 15 / 2, 8⟩)
      = some { initialCamera ⟨8, 14889779 / 2097152, 8⟩ with onGround := false } := by
    decide!
  refine ⟨_, h, rfl, ?_, ?_, ?_, ?_⟩ <;> decide!

/-- C4 (amended): in a frame where the ascend key (Space) is held, with
currentSpeed = float32(moveSpeed) * float32(deltaTime), feetY and the candidate cell as
in the descend handling, all in float32 arithmetic, `processInput` returns and:
if no descend key is held, onGround = false and cameraY is the float32 sum
cameraY + currentSpeed; if a descend key is held and the candidate cell is not solid,
onGround = false and cameraY is the float32 value (cameraY + currentSpeed) - currentSpeed;
if a descend key is held and the candidate cell is solid, onGround = true and cameraY
is the float32 sum float32(candidate y + 1) + playerHeight + 0.01. -/
theorem processInput_ascend (normalize : Vec3 → Vec3) (keys : Keys) (deltaTime : ℚ)
    (w : World) (s : Camera) (hup : keys.keySpace = true) :
    let currentSpeed := f32mul (round32 moveSpeed) (round32 deltaTime)
    let pos1 := moveHorizontal normalize keys currentSpeed s.cameraFront s.cameraPos
    let feetY := f32sub pos1.y (round32 playerHeight)
    let candY : Int := ⌊f32sub feetY currentSpeed⌋
    ∃ s2 solid,
      processInput normalize keys deltaTime w s = some s2 ∧
      isSolid w ⌊pos1.x⌋ candY ⌊pos1.z⌋ = some solid ∧
      (keys.keyLeftShift = false ∧ keys.keyLeftControl = false →
        s2.onGround = false ∧ s2.cameraPos.y = f32add pos1.y currentSpeed) ∧
      ((keys.keyLeftShift = true ∨ keys.keyLeftControl = true) ∧ solid = false →
        s2.onGround = false ∧
          s2.cameraPos.y = f32sub (f32add pos1.y currentSpeed) currentSpeed) ∧
      ((keys.keyLeftShift = true ∨ keys.keyLeftControl = true) ∧ solid = true →
        s2.onGround = true ∧
          s2.cameraPos.y =
            f32add (f32add (round32 ((candY + 1 : Int) : ℚ)) (round32 playerHeight))
              (round32 (1 / 100))) := by
  intro currentSpeed pos1 feetY candY
  refine ⟨_, _, processInput_eq normalize keys deltaTime w s, isSolid_eq_solidAt _ _ _ _,
    ?_, ?_, ?_⟩
  · rintro ⟨h1, h2⟩
    simp [h1, h2, hup, pos1, currentSpeed]
  · rintro ⟨hdown, hs⟩
    have hd : (keys.keyLeftShift || keys.keyLeftControl) = true := by
      rcases hdown with h | h <;> simp [h]
    have hs2 : solidAt w ⌊pos1.x⌋ ⌊f32sub feetY currentSpeed⌋ ⌊pos1.z⌋ = false := hs
    simp only [hd, hup, if_true, hs2]
    simp [pos1, currentSpeed]
  · rintro ⟨hdown, hs⟩
    have hd : (keys.keyLeftShift || keys.keyLeftControl) = true := by
      rcases hdown with h | h <;> simp [h]
    have hs2 : solidAt w ⌊pos1.x⌋ ⌊f32sub feetY currentSpeed⌋ ⌊pos1.z⌋ = true := hs
    simp only [hd, hup, if_true, hs2]
    exact ⟨trivial, trivial⟩

/-- C4 (amended) at three concrete clamped frames on the flat world.  With only Space
held, a camera at the resting height rises to the float32 value 15120467/2097152 with
onGround = false.  With Space and LeftShift held, a camera at cameraY = 8 (candidate
cell (8,5,8), not solid) ends at 16777215/2097152 with onGround = false, and a camera
at the resting height (candidate cell (8,4,8), solid) ends at the resting height with
onGround = true. -/
theorem processInput_ascend_witness :
    (∃ s2, processInput id ascendKeys clampedDeltaTime flatWorld restingCamera = some s2 ∧
      s2.onGround = false ∧ s2.cameraPos.y = 15120467 / 2097152) ∧
    (∃ s2, processInput id ascendDescendKeys clampedDeltaTime flatWorld
        (initialCamera ⟨8, 8, 8⟩) = some s2 ∧
      s2.onGround = false ∧ s2.cameraPos.y = 16777215 / 2097152) ∧
    (∃ s2, processInput id ascendDescendKeys clampedDeltaTime flatWorld restingCamera
        = some s2 ∧
      s2.onGround = true ∧ s2.cameraPos.y = restingHeight) := by
  refine ⟨?_, ?_, ?_⟩
  · obtain ⟨s2, solid, h1, _, h3, _, _⟩ := processInput_ascend id ascendKeys clampedDeltaTime
      flatWorld restingCamera rfl
    exact ⟨s2, h1, (h3 ⟨rfl, rfl⟩).1, (h3 ⟨rfl, rfl⟩).2.trans (by decide!)⟩
  · obtain ⟨s2, solid, h1, h2, _, h4, _⟩ := processInput_ascend id ascendDescendKeys
      clampedDeltaTime flatWorld (initialCamera ⟨8, 8, 8⟩) rfl
    have hs : solid = false := Option.some.inj (h2.symm.trans (by decide!))
    exact ⟨s2, h1, (h4 ⟨Or.inl rfl, hs⟩).1, (h4 ⟨Or.inl rfl, hs⟩).2.trans (by decide!)⟩
  · obtain ⟨s2, solid, h1, h2, _, _, h5⟩ := processInput_ascend id ascendDescendKeys
      clampedDeltaTime flatWorld restingCamera rfl
    have hs : solid = true := Option.some.inj (h2.symm.trans (by decide!))
    exact ⟨s2, h1, (h5 ⟨Or.inl rfl, hs⟩).1, (h5 ⟨Or.inl rfl, hs⟩).2.trans (by decide!)⟩

/-- C4 as stated fails in two ways, shown in clamped frames on the flat world from a
camera at the resting height.  With Space and LeftShift held the frame ends with
onGround = true and cameraY unchanged, not raised.  With only Space held cameraY rises
by 838861/2097152 (about 0.40000010), which is neither moveSpeed * deltaTime, nor
moveSpeed * float32(deltaTime), nor 0.4. -/
theorem processInput_ascend_descend_counterexample :
    (ascendDescendKeys.keySpace = true ∧
      ∃ s2, processInput id ascendDescendKeys clampedDeltaTime flatWorld restingCamera
          = some s2 ∧
        s2.onGround = true ∧
        s2.cameraPos.y = restingCamera.cameraPos.y ∧
        s2.cameraPos.y ≠
          (moveHorizontal id ascendDescendKeys
            (f32mul (round32 moveSpeed) (round32 clampedDeltaTime))
            restingCamera.cameraFront restingCamera.cameraPos).y
            + moveSpeed * clampedDeltaTime) ∧
    (ascendKeys.keySpace = true ∧ ascendKeys.keyLeftShift = false ∧
      ascendKeys.keyLeftControl = false ∧
      ∃ s2, processInput id ascendKeys clampedDeltaTime flatWorld restingCamera = some s2 ∧
        s2.cameraPos.y - restingCamera.cameraPos.y = 838861 / 2097152 ∧
        s2.cameraPos.y - restingCamera.cameraPos.y ≠ moveSpeed * clampedDeltaTime ∧
        s2.cameraPos.y - restingCamera.cameraPos.y ≠ moveSpeed * round32 clampedDeltaTime ∧
        s2.cameraPos.y - restingCamera.cameraPos.y ≠ 4 * (1 / 10)) := by
  have hboth : processInput id ascendDescendKeys clampedDeltaTime flatWorld restingCamera
      = some restingCamera := by decide!
  have hup : processInput id ascendKeys clampedDeltaTime flatWorld restingCamera
      = some { restingCamera with
          cameraPos := ⟨8, 15120467 / 2097152, 8⟩, onGround := false } := by decide!
  constructor
  · refine ⟨rfl, _, hboth, rfl, rfl, ?_⟩
    decide!
  · refine ⟨rfl, rfl, rfl, _, hup, ?_, ?_, ?_, ?_⟩ <;> decide!

/-- C9 fails on the code: on the flat world, with only LeftShift held, a frame time of
1123361/16777216 s (between 0 and 0.1) and the camera at height 14822313/2097152, both
float32 values, the feet cell (8,5,8) is not solid and the candidate height rounds to
exactly 5.0, so the candidate cell (8,5,8) is not solid and the free-descent branch is
taken; the new cameraY is 1782579/262144 and the feet height recomputed from it is
5242879/1048576, just below 5, so the new feet cell is (8,4,8), the solid Grass block.
The feet cells are the same when the subtraction of playerHeight is taken exactly. -/
theorem processInput_descend_enters_solid :
    (0 ≤ grazingDeltaTime ∧ grazingDeltaTime ≤ 1 / 10) ∧
    (round32 grazingDeltaTime = grazingDeltaTime ∧ round32 grazingHeight = grazingHeight) ∧
    (descendKeys.keyW = false ∧ descendKeys.keyS = false ∧ descendKeys.keyA = false ∧
      descendKeys.keyD = false ∧ descendKeys.keySpace = false ∧
      descendKeys.keyLeftShift = true) ∧
    f32sub grazingHeight (round32 playerHeight) = 690465 / 131072 ∧
    ⌊grazingHeight - playerHeight⌋ = 5 ∧
    isSolid flatWorld ⌊(8 : ℚ)⌋ ⌊f32sub grazingHeight (round32 playerHeight)⌋ ⌊(8 : ℚ)⌋
      = some false ∧
    f32sub (f32sub grazingHeight (round32 playerHeight))
      (f32mul (round32 moveSpeed) (round32 grazingDeltaTime)) = 5 ∧
    ∃ s2, processInput id descendKeys grazingDeltaTime flatWorld
        (initialCamera ⟨8, grazingHeight, 8⟩) = some s2 ∧
      s2.cameraPos = ⟨8, 1782579 / 262144, 8⟩ ∧
      s2.onGround = false ∧
      f32sub s2.cameraPos.y (round32 playerHeight) = 5242879 / 1048576 ∧
      ⌊f32sub s2.cameraPos.y (round32 playerHeight)⌋ = 4 ∧
      ⌊s2.cameraPos.y - playerHeight⌋ = 4 ∧
      isSolid flatWorld ⌊s2.cameraPos.x⌋ ⌊f32sub s2.cameraPos.y (round32 playerHeight)⌋
        ⌊s2.cameraPos.z⌋ = some true := by
  have h : processInput id descendKeys grazingDeltaTime flatWorld
      (initialCamera ⟨8, grazingHeight, 8⟩)
      = some { initialCamera ⟨8, 1782579 / 262144, 8⟩ with onGround := false } := by
    decide!
  refine ⟨by decide!, by decide!, by decide, by decide!, by decide!, by decide!, by decide!,
    _, h, rfl, rfl, ?_, ?_, ?_, ?_⟩ <;> decide!

/-- C10: at startup, for every prior grid, the scan of the spawn column (8,8) finds
groundY = 4 and the camera is placed at (8, y, 8) with y the float32 sum 4 + 0.5 + 1.8,
which is 6606029/1048576, the float32 nearest 6.3; its feet are at exactly 4.5, so the
feet cell is (8,4,8), the Grass block itself, which is solid, as is the cell below it;
the first cell that is not solid is the one above, (8,5,8); holding LeftShift for one
clamped frame from there snaps the camera up to the resting height. -/
theorem startup_feet_inside_ground (w0 : World) :
    ∃ w groundY cameraPos, startup w0 = some (w, groundY, cameraPos) ∧
      groundY = 4 ∧ cameraPos = ⟨8, 6606029 / 1048576, 8⟩ ∧
      cameraPos.y = round32 (63 / 10) ∧
      f32sub cameraPos.y (round32 playerHeight) = 9 / 2 ∧
      ⌊f32sub cameraPos.y (round32 playerHeight)⌋ = 4 ∧
      ⌊cameraPos.y - playerHeight⌋ = 4 ∧
      isSolid w ⌊cameraPos.x⌋ ⌊f32sub cameraPos.y (round32 playerHeight)⌋ ⌊cameraPos.z⌋
        = some true ∧
      isSolid w ⌊cameraPos.x⌋ (⌊f32sub cameraPos.y (round32 playerHeight)⌋ - 1) ⌊cameraPos.z⌋
        = some true ∧
      isSolid w ⌊cameraPos.x⌋ (⌊f32sub cameraPos.y (round32 playerHeight)⌋ + 1) ⌊cameraPos.z⌋
        = some false ∧
      (∃ s2, processInput id descendKeys clampedDeltaTime w (initialCamera cameraPos) = some s2 ∧
        s2.cameraPos.y = restingHeight ∧ cameraPos.y < s2.cameraPos.y) := by
  have hstart : startup w0 = some (flatWorld, 4, ⟨8, 6606029 / 1048576, 8⟩) := by
    have h8x : round32 ((worldSizeX / 2 : Nat) : ℚ) = 8 := by decide!
    have h8y : round32 ((worldSizeY : Nat) : ℚ) = 8 := by decide!
    have hfl : ⌊(8 : ℚ)⌋ = 8 := by decide!
    have hscan : findGround flatWorld 8 8 8 7 = some 4 := by decide
    have h7 : ((worldSizeY : Nat) : Int) - 1 = 7 := by decide
    have hy : f32add (f32add (round32 ((4 : Int) : ℚ)) (round32 (1 / 2))) (round32 playerHeight)
        = 6606029 / 1048576 := by decide!
    simp only [startup, setupWorld_eq, Option.bind_eq_bind, Option.some_bind, h8x, h8y, hfl,
      h7, hscan, hy, Option.pure_def]
  have hsnap : processInput id descendKeys clampedDeltaTime flatWorld
      (initialCamera ⟨8, 6606029 / 1048576, 8⟩)
      = some { initialCamera ⟨8, restingHeight, 8⟩ with onGround := true } := by
    decide!
  refine ⟨flatWorld, 4, ⟨8, 6606029 / 1048576, 8⟩, hstart, rfl, rfl, by decide!, by decide!,
    by decide!, by decide!, by decide!, by decide!, by decide!, _, hsnap, rfl, ?_⟩
  decide!

end GoCraft
